import Mathlib

/-!
Shallow embedding of the brokkr monitoring core (src/brokkr/monitor.py and
src/brokkr/monitoring/sensor.py), together with theorems settling the frozen
claims about the natural-language specification.

Modelling conventions:
* Machine time (`time.monotonic_ns`) is modelled as `Int` nanoseconds; the
  Python code mixes ints and floats (`monitor_interval * 1e9`), which agree
  with exact integer arithmetic whenever the values are exactly representable,
  as the spec's arithmetic assumes.
* Python `%` on a positive divisor agrees with Lean's Euclidean `%` on `Int`.
* Effectful calls (socket operations, subprocess runs, the event flag, the
  clock) are modelled by environments that record the outcome of each call;
  the embedded functions are pure functions of those environments.
* A Python function that may raise is embedded as returning `Except String`.
-/

/-! ## Severities and log entries

`logging` severities used by the code. A `log_details` call (from
`brokkr.utils.log`, passed either `LOGGER.debug` or the bare `LOGGER`) is
recorded as a `context` entry carrying whether it was invoked through the
debug method; it dumps socket state and target address context. -/

inductive Severity where
  | debug
  | info
  | warning
  | error
  | critical
deriving DecidableEq, Repr

inductive LogEntry where
  | message (sev : Severity)
  | context (viaDebug : Bool)
deriving DecidableEq, Repr

/-- An entry is "low severity" when it is a debug/info message or a
`log_details` dump routed through `LOGGER.debug`. -/
def lowSeverity : LogEntry → Bool
  | LogEntry.message Severity.debug => true
  | LogEntry.message Severity.info => true
  | LogEntry.context true => true
  | _ => false

/-! ## Liveness prober: `sensor.ping`

`ping` builds a one-probe ping command (packet-count flag `-n` on Windows,
`-c` elsewhere) and runs it with `subprocess.run(..., timeout=timeout + 1)`.
The embedding records the outcome of that subprocess call. -/

/-- Platform-dependent packet-count flag chosen by `ping`. -/
def count_param (systemName : String) : String :=
  if systemName = "windows" then "-n" else "-c"

/-- Outcome of the `subprocess.run` call inside `ping`:
the process completed with a return code, the run raised
`subprocess.TimeoutExpired`, or it raised some other exception. -/
inductive PingOutcome where
  | completed (returncode : Int)
  | timeoutExpired
  | otherFailure
deriving DecidableEq, Repr

/-- `sensor.ping`: returns the probe's return code on completion, `-1` on
`TimeoutExpired` (logged at warning), `-9` on any other exception (logged at
error). -/
def ping (outcome : PingOutcome) : Int :=
  match outcome with
  | PingOutcome.completed rc => rc
  | PingOutcome.timeoutExpired => -1
  | PingOutcome.otherFailure => -9

/-- Log severities emitted by `ping` on each outcome (ignoring debug chatter):
warning for a timeout, error for any other failure. -/
def pingLogs (outcome : PingOutcome) : List LogEntry :=
  match outcome with
  | PingOutcome.completed _ => []
  | PingOutcome.timeoutExpired => [LogEntry.message Severity.warning]
  | PingOutcome.otherFailure => [LogEntry.message Severity.error]

/-! ## UDP acquirer: `sensor.read_hs_packet`

The code opens a UDP socket, sets a timeout, binds to `(host, port)`, then
receives up to `buffer_size` bytes.  `ERROR_CODES_LINK_DOWN` is the
platform-resolved set `{getattr(errno, "EADDRNOTAVAIL", None),
getattr(errno, "WSAEADDRNOTAVAIL", None)}`. -/

/-- The values of `getattr(errno, name, None)` for the two names consulted,
as resolved on the running platform. -/
structure PlatformErrno where
  eaddrnotavail : Option Int
  wsaeaddrnotavail : Option Int
deriving DecidableEq, Repr

/-- `sensor.ERROR_CODES_LINK_DOWN` (a set in the source; membership-equivalent
list here). On non-Windows platforms the second element resolves to `None`. -/
def ERROR_CODES_LINK_DOWN (p : PlatformErrno) : List (Option Int) :=
  [p.eaddrnotavail, p.wsaeaddrnotavail]

/-- A Linux-style platform: `errno.EADDRNOTAVAIL = 99`, no `WSAEADDRNOTAVAIL`. -/
def LINUX_ERRNO : PlatformErrno := ⟨some 99, none⟩

/-- `sensor.BUFFER_SIZE_HS`. -/
def BUFFER_SIZE_HS : Nat := 128

/-- Python truthiness of `e.errno` (an int or `None`): `not e.errno` is true
for `None` and for `0`. -/
def truthy : Option Int → Bool
  | none => false
  | some v => v != 0

/-- Outcome of `sock.settimeout`/`sock.bind`: success, an `OSError` carrying
`e.errno`, or a non-`OSError` exception. -/
inductive BindOutcome where
  | ok
  | osError (errnoVal : Option Int)
  | otherError
deriving DecidableEq, Repr

/-- Outcome of `sock.recv(buffer_size)`: a datagram (the bytes the OS would
deliver, before the `buffer_size` cap), `socket.timeout`, or another
exception. -/
inductive RecvOutcome where
  | received (data : List Nat)
  | timeout
  | recvError
deriving DecidableEq, Repr

/-- The effectful outcomes of one `read_hs_packet` call. -/
structure UdpEnv where
  bind : BindOutcome
  recv : RecvOutcome
deriving DecidableEq, Repr

/-- `sensor.read_hs_packet`, embedding the control flow of the source:

* `OSError` on settimeout/bind with `not e.errno or e.errno not in
  ERROR_CODES_LINK_DOWN` → `LOGGER.error` plus `log_details(LOGGER, ...)`,
  return `None`;
* `OSError` with a truthy errno in the link-down set → `LOGGER.debug` plus
  `log_details(LOGGER.debug, ...)`, return `None`;
* any other bind exception → `LOGGER.error` plus details, return `None`;
* `socket.timeout` on recv → `LOGGER.debug` plus `log_details(LOGGER.debug)`,
  return `None`;
* any other recv exception → `LOGGER.error` plus details, return `None`;
* an empty datagram → `LOGGER.warning`, return `None`;
* otherwise return the datagram truncated to `packet_size`.

The leading `LOGGER.debug("Reading H&S data...")`, the post-bind
`LOGGER.debug("Listening on socket ...")`, the post-recv
`LOGGER.debug("Data recieved ...")` and the final packet-hex debug message
are kept so the log list mirrors the source order. -/
def read_hs_packet (p : PlatformErrno) (env : UdpEnv)
    (packet_size buffer_size : Nat) : Option (List Nat) × List LogEntry :=
  let startLogs := [LogEntry.message Severity.debug]
  match env.bind with
  | BindOutcome.osError e =>
      if truthy e = false ∨ e ∉ ERROR_CODES_LINK_DOWN p then
        (none, startLogs ++ [LogEntry.message Severity.error, LogEntry.context false])
      else
        (none, startLogs ++ [LogEntry.message Severity.debug, LogEntry.context true])
  | BindOutcome.otherError =>
      (none, startLogs ++ [LogEntry.message Severity.error, LogEntry.context false])
  | BindOutcome.ok =>
      let bindLogs := startLogs ++ [LogEntry.message Severity.debug]
      match env.recv with
      | RecvOutcome.timeout =>
          (none, bindLogs ++ [LogEntry.message Severity.debug, LogEntry.context true])
      | RecvOutcome.recvError =>
          (none, bindLogs ++ [LogEntry.message Severity.error, LogEntry.context false])
      | RecvOutcome.received data =>
          let packet := data.take buffer_size
          let recvLogs := bindLogs ++ [LogEntry.message Severity.debug]
          if packet.isEmpty then
            (none, recvLogs ++ [LogEntry.message Severity.warning])
          else
            (some (packet.take packet_size),
             recvLogs ++ [LogEntry.message Severity.debug])

/-! ## Python dict model

`status_data` in `monitor.get_status_data` is a Python dict: an ordered
mapping where assigning to an existing key updates it in place (keeping its
position) and assigning a fresh key appends it.  `dict.update(m)` assigns
every entry of `m` in `m`'s iteration order. -/

/-- Python values that can appear in a status record: `None`, ints, strings,
timestamps (as integral values), and nested dicts (mappings returned by
unpack-style sources). -/
inductive PyObj where
  | noneV : PyObj
  | int : Int → PyObj
  | str : String → PyObj
  | dict : List (String × PyObj) → PyObj

/-- Lookup: first binding of a key (Python dicts hold each key at most once;
on lists built by `dictSet` from `[]` this is the dict lookup). -/
def dictGet (d : List (String × PyObj)) (k : String) : Option PyObj :=
  match d with
  | [] => none
  | p :: ps => if p.1 = k then some p.2 else dictGet ps k

/-- `d[k] = v` on a Python dict: update the existing binding in place, else
append. -/
def dictSet (d : List (String × PyObj)) (k : String) (v : PyObj) :
    List (String × PyObj) :=
  match d with
  | [] => [(k, v)]
  | p :: ps => if p.1 = k then (k, v) :: ps else p :: dictSet ps k v

/-- `d.update(m)`: assign every entry of `m` in order. -/
def dictUpdate (d m : List (String × PyObj)) : List (String × PyObj) :=
  match m with
  | [] => d
  | p :: ps => dictUpdate (dictSet d p.1 p.2) ps

/-- The last binding a key receives in a mapping iterated in order (the value
`update` leaves for that key). -/
def lookupLast (m : List (String × PyObj)) (k : String) : Option PyObj :=
  match m with
  | [] => none
  | p :: ps =>
      match lookupLast ps k with
      | some v => some v
      | none => if p.1 = k then some p.2 else none

/-! ## Acquisition dispatcher: `monitor.get_status_data`

`STATUS_DATA_ITEMS` is an ordered tuple of `StatusDataItem(name, fn, unpack)`.
The loop calls `item.fn()` for each item in order; with `unpack` it does
`status_data.update(output_data)` (a `TypeError` if the result is not a
mapping), otherwise `status_data[item.name] = output_data`.  Any exception
from `fn()` propagates out of `get_status_data` uncaught. -/

/-- One `StatusDataItem`; `fn` records the result of calling `item.fn()` on
this tick (`Except.error` when the call raises). -/
structure StatusDataItem where
  name : String
  fn : Except String PyObj
  unpack : Bool

/-- The body of one loop iteration of `get_status_data`. -/
def stepStatusItem (acc : List (String × PyObj)) (item : StatusDataItem) :
    Except String (List (String × PyObj)) :=
  match item.fn with
  | Except.error e => Except.error e
  | Except.ok output_data =>
      if item.unpack then
        match output_data with
        | PyObj.dict m => Except.ok (dictUpdate acc m)
        | _ => Except.error "TypeError: update requires a mapping"
      else
        Except.ok (dictSet acc item.name output_data)

/-- The `for item in status_data_items` loop with accumulator `acc`. -/
def runStatusItems (acc : List (String × PyObj)) :
    List StatusDataItem → Except String (List (String × PyObj))
  | [] => Except.ok acc
  | item :: rest =>
      match stepStatusItem acc item with
      | Except.error e => Except.error e
      | Except.ok acc2 => runStatusItems acc2 rest

/-- `monitor.get_status_data`: start from `{}` and fold the items in declared
order. -/
def get_status_data (items : List StatusDataItem) :
    Except String (List (String × PyObj)) :=
  runStatusItems [] items

/-! ## Scheduler: `monitor.start_monitoring`

The drift-correction expression (monitor.py lines 79-81) reads the monotonic
clock twice:

  next_time = monotonic_ns() + monitor_interval * 1e9
              - (monotonic_ns() - START_TIME) % (monitor_interval * 1e9)

All times below are `Int` nanoseconds and `intervalNs` stands for
`monitor_interval * 1e9`. -/

/-- The `next_time` expression with the two clock readings made explicit
(`now1` is the first `monotonic_ns()` call, `now2` the second). -/
def next_time (now1 now2 startTime intervalNs : Int) : Int :=
  now1 + intervalNs - (now2 - startTime) % intervalNs

/-- The effectful outcomes seen by one run of `start_monitoring`:
`clock k` is the value of the k-th `monotonic_ns()` call, `eventSet k` the
result of the k-th observation of `exit_event`'s flag (`is_set()` checks, in
order), and `tickErr n` whether the n-th `record_status_data()` call raises. -/
structure MonitorEnv where
  clock : Nat → Int
  eventSet : Nat → Bool
  tickErr : Nat → Bool

/-- Events of one scheduler run, in order: a tick (with whether it raised),
the `logger.critical` call for a raised tick, an `is_set()` observation, an
`exit_event.wait(d)` call (duration in nanoseconds), and the final
`exit_event.clear()`. -/
inductive MEvent where
  | tick (n : Nat) (err : Bool)
  | logCritical (n : Nat)
  | checkExit (b : Bool)
  | wait (d : Int)
  | clearEvent
deriving DecidableEq, Repr

/-- Progress counters of a run: clock calls, event observations, ticks. -/
structure LoopState where
  c : Nat
  o : Nat
  n : Nat
deriving DecidableEq, Repr

/-- The inner sleep loop (monitor.py lines 82-84):

  while not exit_event.is_set() and monotonic_ns() < next_time:
      exit_event.wait(min(sleep_interval, (next_time - monotonic_ns()) / 1e9))

One iteration observes the flag, short-circuits if set, otherwise reads the
clock for the condition and, if still early, reads it again for the wait
duration.  `sleepNs` is `sleep_interval * 1e9`; durations stay in ns.
Fuel-indexed; `none` means the fuel ran out with the loop still running. -/
def sleepLoop (env : MonitorEnv) (sleepNs nextTime : Int) :
    Nat → LoopState → Option (List MEvent × LoopState)
  | 0, _ => none
  | fuel + 1, st =>
      if env.eventSet st.o then
        some ([MEvent.checkExit true], ⟨st.c, st.o + 1, st.n⟩)
      else if env.clock st.c < nextTime then
        let d := min sleepNs (nextTime - env.clock (st.c + 1))
        match sleepLoop env sleepNs nextTime fuel ⟨st.c + 2, st.o + 1, st.n⟩ with
        | none => none
        | some (tr, st2) =>
            some (MEvent.checkExit false :: MEvent.wait d :: tr, st2)
      else
        some ([MEvent.checkExit false], ⟨st.c + 1, st.o + 1, st.n⟩)

/-- The outer loop of `monitor.start_monitoring` (lines 72-85):

  while not exit_event.is_set():
      try: record_status_data(...)
      except Exception as e: logger.critical(...); logger.info(...)
      next_time = monotonic_ns() + interval * 1e9
                  - (monotonic_ns() - START_TIME) % (interval * 1e9)
      [inner sleep loop]
  exit_event.clear()

A raising tick is caught and logged critical; the loop then computes
`next_time` and sleeps exactly as on a successful tick. -/
def monitorLoop (env : MonitorEnv) (intervalNs sleepNs startTime : Int) :
    Nat → LoopState → Option (List MEvent × LoopState)
  | 0, _ => none
  | fuel + 1, st =>
      if env.eventSet st.o then
        some ([MEvent.checkExit true, MEvent.clearEvent], ⟨st.c, st.o + 1, st.n⟩)
      else
        let err := env.tickErr st.n
        let tickEvents :=
          if err then [MEvent.tick st.n true, MEvent.logCritical st.n]
          else [MEvent.tick st.n false]
        let t1 := env.clock st.c
        let t2 := env.clock (st.c + 1)
        let nt := next_time t1 t2 startTime intervalNs
        match sleepLoop env sleepNs nt fuel ⟨st.c + 2, st.o + 1, st.n + 1⟩ with
        | none => none
        | some (trIn, st2) =>
            match monitorLoop env intervalNs sleepNs startTime fuel st2 with
            | none => none
            | some (trOut, st3) =>
                some (MEvent.checkExit false :: tickEvents ++ trIn ++ trOut, st3)

/-- `monitor.start_monitoring`: run the loop from fresh counters. -/
def start_monitoring (env : MonitorEnv) (intervalNs sleepNs startTime : Int)
    (fuel : Nat) : Option (List MEvent × LoopState) :=
  monitorLoop env intervalNs sleepNs startTime fuel ⟨0, 0, 0⟩

/-! ## Binary decoder (spec-modelled) and `sensor.get_hs_data`

`brokkr.utils.decode.DataDecoder` is code of this repository that is not
under src/ — only its caller `sensor.py` and its field-spec table are.  The
decoder below is modelled from the spec (section 4.3): `packet_size` is the
sum of the per-field byte widths; decoding walks the specs in order,
consuming each field's width from a big-endian buffer, dropping fields whose
`output_type` is null; a buffer shorter than `packet_size` fails with a
distinct recoverable decode error. -/

/-- One entry of `sensor.VARIABLE_PARAMS_HS`. -/
structure VariableParam where
  name : String
  raw_type : String
  output_type : Option String
deriving DecidableEq, Repr

/-- `sensor.VARIABLE_PARAMS_HS` verbatim from the source. -/
def VARIABLE_PARAMS_HS : List VariableParam :=
  [⟨"marker_val", "8s", none⟩,
   ⟨"sequence_count", "I", some "I"⟩,
   ⟨"timestamp", "q", some "tm"⟩,
   ⟨"crc_errors", "I", some "I"⟩,
   ⟨"valid_packets", "I", some "I"⟩,
   ⟨"bytes_read", "Q", some "B"⟩,
   ⟨"bytes_written", "Q", some "B"⟩,
   ⟨"bytes_remaining", "Q", some "B"⟩,
   ⟨"packets_sent", "I", some "I"⟩,
   ⟨"packets_dropped", "I", some "I"⟩]

/-- Byte widths of the struct format codes used in `VARIABLE_PARAMS_HS`
("8s" fixed 8-byte string, "I" unsigned 32-bit, "q" signed 64-bit,
"Q" unsigned 64-bit); these match the width column of spec section 6. -/
def raw_type_width : String → Nat
  | "8s" => 8
  | "I" => 4
  | "q" => 8
  | "Q" => 8
  | _ => 0

/-- Modelled from the spec: `DataDecoder.packet_size` — the sum of the byte
widths declared by the ordered field specs. -/
def packet_size (varSpecs : List VariableParam) : Nat :=
  (varSpecs.map (fun v => raw_type_width v.raw_type)).sum

/-- Big-endian unsigned value of a byte list. -/
def beUnsigned (bytes : List Nat) : Int :=
  bytes.foldl (fun acc b => acc * 256 + (b : Int)) 0

/-- Modelled from the spec: raw decode of one field — a fixed byte string
stays raw bytes (kept as the unsigned value here), "q" is two's-complement
signed, "I"/"Q" unsigned. -/
def decodeRaw (code : String) (bytes : List Nat) : Int :=
  if code = "q" then
    let u := beUnsigned bytes
    if u < 2 ^ 63 then u else u - 2 ^ 64
  else beUnsigned bytes

/-- Modelled from the spec: decode the fields in spec order, consuming each
field's width and dropping fields whose `output_type` is null. -/
def decodeFields : List VariableParam → List Nat → List (String × PyObj)
  | [], _ => []
  | v :: vs, raw =>
      let w := raw_type_width v.raw_type
      let rest := raw.drop w
      match v.output_type with
      | none => decodeFields vs rest
      | some _ => (v.name, PyObj.int (decodeRaw v.raw_type (raw.take w)))
          :: decodeFields vs rest

/-- Modelled from the spec: `DataDecoder.decode_data` — fails with a distinct
recoverable decode error when the buffer is shorter than `packet_size`,
otherwise yields the decoded record. -/
def decode_data (varSpecs : List VariableParam) (raw : List Nat) :
    Except String (List (String × PyObj)) :=
  if raw.length < packet_size varSpecs then
    Except.error "DecodeError: truncated packet"
  else
    Except.ok (decodeFields varSpecs raw)

/-- `sensor.get_hs_data`: read one packet and decode it into the mapping the
dispatcher unpacks.  When `read_hs_packet` returned `None` the source passes
`None` into the decoder; that branch of the missing decoder is modelled from
the spec as the "no usable sample this tick" decode error. -/
def get_hs_data (p : PlatformErrno) (env : UdpEnv) : Except String PyObj :=
  match (read_hs_packet p env (packet_size VARIABLE_PARAMS_HS) BUFFER_SIZE_HS).1 with
  | some pkt => (decode_data VARIABLE_PARAMS_HS pkt).map PyObj.dict
  | none => Except.error "DecodeError: no data"

/-! ## Scheduler trace lemmas (toward C3, C9) -/

/-- A tick event that raised. -/
def isTickFailB : MEvent → Bool
  | MEvent.tick _ true => true
  | _ => false

/-- A `logger.critical` event. -/
def isLogCritB : MEvent → Bool
  | MEvent.logCritical _ => true
  | _ => false

/-- Tick-related trace events (the tick itself and its critical log). -/
def isTickEventB : MEvent → Bool
  | MEvent.tick _ _ => true
  | MEvent.logCritical _ => true
  | _ => false

/-- A trace with the tick-related events erased: what remains is the
scheduling skeleton (observations, waits, the final clear). -/
def stripTicks (tr : List MEvent) : List MEvent :=
  tr.filter (fun e => !isTickEventB e)

/-- Whether a trace starts with a `wait` event. -/
def headIsWait : List MEvent → Bool
  | MEvent.wait _ :: _ => true
  | _ => false

/-- Every `wait` in the trace is immediately preceded by an `is_set()`
observation that returned false: the token is re-checked before each sleep
increment. -/
inductive WaitOk : List MEvent → Prop where
  | nil : WaitOk []
  | waitStep (d : Int) (tr : List MEvent) : WaitOk tr →
      WaitOk (MEvent.checkExit false :: MEvent.wait d :: tr)
  | skip (e : MEvent) (tr : List MEvent) :
      (∀ d, e ≠ MEvent.wait d) → headIsWait tr = false → WaitOk tr →
      WaitOk (e :: tr)

/-- A run environment whose exit event reads as already set: the loop exits
on its first observation. -/
def envAlwaysSet : MonitorEnv := ⟨fun _ => 0, fun _ => true, fun _ => false⟩

/-- A tick's status items when the UDP acquirer received a 4-byte (truncated)
datagram: the well-behaved "time" source, then the "hs" source whose fetch
runs `get_hs_data` on that datagram. -/
def exampleC5items : List StatusDataItem :=
  [⟨"time", Except.ok (PyObj.int 0), false⟩,
   ⟨"hs", get_hs_data LINUX_ERRNO ⟨BindOutcome.ok, RecvOutcome.received [1, 2, 3, 4]⟩,
    true⟩]

/-- A scheduler environment whose first tick raises (the decode error of
`exampleC5items`) and whose second tick succeeds; the exit event reads set
from the fifth observation on. -/
def envC5loop : MonitorEnv :=
  ⟨fun c => if c < 2 then 0 else if c < 5 then 10 else 20,
   fun o => decide (4 ≤ o),
   fun n => decide (n = 0)⟩

/-- The trace of the concrete two-tick run of `envC5loop`. -/
def trC5 : List MEvent :=
  ((monitorLoop envC5loop 10 5 0 5 ⟨0, 0, 0⟩).map Prod.fst).getD []

/-! ## Claim theorems: scheduler arithmetic (C1, C6) -/

/-- C1: after the tick, the next scheduled instant is computed as
`nextTime = now + monitorInterval - ((now - startTime) mod monitorInterval)`,
which is the smallest multiple of `monitorInterval` past `startTime` that is
still strictly in the future; with `monitorInterval = 10`, `startTime = T0`
and a tick ending at `T0 + 3`, the next tick instant is `T0 + 10`, so
sampling instants stay aligned to `T0 + k * monitorInterval`. -/
theorem claim_C1_next_time (now startTime intervalNs : Int)
    (hI : 0 < intervalNs) :
    next_time now now startTime intervalNs
      = startTime + intervalNs * ((now - startTime) / intervalNs + 1)
    ∧ now < next_time now now startTime intervalNs
    ∧ (∀ k : Int, now < startTime + intervalNs * k →
        next_time now now startTime intervalNs ≤ startTime + intervalNs * k)
    ∧ next_time (startTime + 3) (startTime + 3) startTime 10 = startTime + 10 := by
  have hne : intervalNs ≠ 0 := ne_of_gt hI
  have hqr : intervalNs * ((now - startTime) / intervalNs)
      + (now - startTime) % intervalNs = now - startTime :=
    Int.ediv_add_emod _ _
  have hr0 : 0 ≤ (now - startTime) % intervalNs := Int.emod_nonneg _ hne
  have hrI : (now - startTime) % intervalNs < intervalNs := Int.emod_lt_of_pos _ hI
  have hmul : intervalNs * ((now - startTime) / intervalNs + 1)
      = intervalNs * ((now - startTime) / intervalNs) + intervalNs := by ring
  refine ⟨?_, ?_, ?_, ?_⟩
  · unfold next_time
    linarith
  · unfold next_time
    linarith
  · intro k hk
    have hqk : (now - startTime) / intervalNs + 1 ≤ k := by
      by_contra hcon
      push_neg at hcon
      have hk2 : k ≤ (now - startTime) / intervalNs := by omega
      have := mul_le_mul_of_nonneg_left hk2 (le_of_lt hI)
      linarith
    have hm := mul_le_mul_of_nonneg_left hqk (le_of_lt hI)
    unfold next_time
    linarith
  · unfold next_time
    omega

/-- Witness for C1 at `now = 3`, `startTime = 0`, `intervalNs = 10`. -/
theorem claim_C1_witness :
    (0 : Int) < 10 ∧ next_time 3 3 0 10 = 0 + 10 * ((3 - 0) / 10 + 1) :=
  ⟨by decide, (claim_C1_next_time 3 0 10 (by decide)).1⟩

/-- C6 counterexample: with `monitorInterval = 10`, `startTime = 0` and a
tick ending at `now = 13` (so the tick took longer than the interval),
`next_time` resolves to `20` — a strictly future instant, not a
past-or-current one, so the loop does sleep rather than proceeding
immediately. -/
theorem claim_C6_counterexample :
    next_time 13 13 0 10 = 20 ∧ ¬ next_time 13 13 0 10 ≤ 13 := by decide

/-- C6 amended: whatever the tick duration, `next_time` resolves to a
strictly future instant at most one interval ahead
(`now < nextTime ≤ now + monitorInterval`) — an overrunning tick skips the
missed multiples and the loop sleeps until the next aligned instant — and
the duration handed to the sleep primitive is never negative. -/
theorem claim_C6_amended (now startTime intervalNs sleepNs : Int)
    (hI : 0 < intervalNs) (hs : 0 ≤ sleepNs) :
    now < next_time now now startTime intervalNs
    ∧ next_time now now startTime intervalNs ≤ now + intervalNs
    ∧ 0 ≤ min sleepNs (next_time now now startTime intervalNs - now) := by
  have hr0 : 0 ≤ (now - startTime) % intervalNs :=
    Int.emod_nonneg _ (ne_of_gt hI)
  have hrI : (now - startTime) % intervalNs < intervalNs :=
    Int.emod_lt_of_pos _ hI
  unfold next_time
  exact ⟨by linarith, by linarith, le_min hs (by linarith)⟩

/-- Witness for the amended C6 at the counterexample's overrunning tick. -/
theorem claim_C6_amended_witness :
    (13 : Int) < next_time 13 13 0 10
    ∧ next_time 13 13 0 10 ≤ 13 + 10
    ∧ 0 ≤ min 5 (next_time 13 13 0 10 - 13) :=
  claim_C6_amended 13 0 10 5 (by decide) (by decide)

/-! ## Claim theorem: liveness prober (C7) -/

/-- C7: `ping` returns exactly `-1` when the probe process exceeds its
timeout, exactly `-9` on any other failure launching or running it, and the
probe's own exit status otherwise; a real (nonnegative) process exit status
never collides with the two reserved codes. -/
theorem claim_C7_ping_codes :
    ping PingOutcome.timeoutExpired = -1
    ∧ ping PingOutcome.otherFailure = -9
    ∧ (∀ rc : Int, ping (PingOutcome.completed rc) = rc)
    ∧ (∀ rc : Int, 0 ≤ rc →
        ping (PingOutcome.completed rc) ≠ -1
        ∧ ping (PingOutcome.completed rc) ≠ -9) := by
  refine ⟨rfl, rfl, fun rc => rfl, fun rc h => ⟨?_, ?_⟩⟩ <;>
    simp only [ping] <;> omega

/-- Witness for C7 at the conventional "reachable" exit status `0`. -/
theorem claim_C7_witness :
    ping (PingOutcome.completed 0) ≠ -1 ∧ ping (PingOutcome.completed 0) ≠ -9 :=
  claim_C7_ping_codes.2.2.2 0 (by decide)

/-! ## Claim theorems: UDP acquirer (C4, C8) -/

/-- C4: a bind failure whose OS error code lies in the platform-resolved
"address not available" set is classified as link-down — logged at low
severity only (no high-severity alarm) — and `None` is returned; any other
bind failure (an `OSError` with an absent/falsy or unlisted code, or any
other exception) is logged at error severity with a socket/address context
dump and `None` is likewise returned.  Neither branch raises. -/
theorem claim_C4_bind_classification (p : PlatformErrno) (r : RecvOutcome)
    (ps bs : Nat) :
    (∀ v : Int, v ≠ 0 → some v ∈ ERROR_CODES_LINK_DOWN p →
      read_hs_packet p ⟨BindOutcome.osError (some v), r⟩ ps bs
        = (none, [LogEntry.message Severity.debug, LogEntry.message Severity.debug,
                  LogEntry.context true])
      ∧ (read_hs_packet p ⟨BindOutcome.osError (some v), r⟩ ps bs).2.all
          lowSeverity = true)
    ∧ (∀ e : Option Int, (truthy e = false ∨ e ∉ ERROR_CODES_LINK_DOWN p) →
        read_hs_packet p ⟨BindOutcome.osError e, r⟩ ps bs
          = (none, [LogEntry.message Severity.debug, LogEntry.message Severity.error,
                    LogEntry.context false]))
    ∧ read_hs_packet p ⟨BindOutcome.otherError, r⟩ ps bs
        = (none, [LogEntry.message Severity.debug, LogEntry.message Severity.error,
                  LogEntry.context false]) := by
  refine ⟨fun v hv hmem => ?_, fun e hcond => ?_, rfl⟩
  · have hcond : ¬ (truthy (some v) = false ∨ some v ∉ ERROR_CODES_LINK_DOWN p) := by
      push_neg
      exact ⟨by simp [truthy, hv], hmem⟩
    have h1 : read_hs_packet p ⟨BindOutcome.osError (some v), r⟩ ps bs
        = (none, [LogEntry.message Severity.debug, LogEntry.message Severity.debug,
                  LogEntry.context true]) := by
      simp only [read_hs_packet]
      rw [if_neg hcond]
      rfl
    refine ⟨h1, ?_⟩
    rw [h1]
    decide
  · simp only [read_hs_packet]
    rw [if_pos hcond]
    rfl

/-- Witness for C4 on a Linux-style platform: `EADDRNOTAVAIL = 99` takes the
link-down branch, `EACCES = 13` the acquisition-error branch. -/
theorem claim_C4_witness :
    (read_hs_packet LINUX_ERRNO ⟨BindOutcome.osError (some 99), RecvOutcome.timeout⟩ 60 128
      = (none, [LogEntry.message Severity.debug, LogEntry.message Severity.debug,
                LogEntry.context true])
     ∧ (read_hs_packet LINUX_ERRNO ⟨BindOutcome.osError (some 99), RecvOutcome.timeout⟩
          60 128).2.all lowSeverity = true)
    ∧ read_hs_packet LINUX_ERRNO ⟨BindOutcome.osError (some 13), RecvOutcome.timeout⟩ 60 128
      = (none, [LogEntry.message Severity.debug, LogEntry.message Severity.error,
                LogEntry.context false]) :=
  ⟨(claim_C4_bind_classification LINUX_ERRNO RecvOutcome.timeout 60 128).1 99
      (by decide) (by decide),
   (claim_C4_bind_classification LINUX_ERRNO RecvOutcome.timeout 60 128).2.1 (some 13)
      (by decide)⟩

/-- C8: the UDP acquirer never raises for expected network conditions — a
receive timeout yields `None` with only low-severity logging, and an empty
datagram yields a warning log and `None`; both are ordinary return values of
the embedded (total) function, so no exception reaches the caller. -/
theorem claim_C8_udp_expected_conditions (p : PlatformErrno) (ps bs : Nat) :
    read_hs_packet p ⟨BindOutcome.ok, RecvOutcome.timeout⟩ ps bs
      = (none, [LogEntry.message Severity.debug, LogEntry.message Severity.debug,
                LogEntry.message Severity.debug, LogEntry.context true])
    ∧ (read_hs_packet p ⟨BindOutcome.ok, RecvOutcome.timeout⟩ ps bs).2.all
        lowSeverity = true
    ∧ read_hs_packet p ⟨BindOutcome.ok, RecvOutcome.received []⟩ ps bs
      = (none, [LogEntry.message Severity.debug, LogEntry.message Severity.debug,
                LogEntry.message Severity.debug, LogEntry.message Severity.warning]) := by
  have h1 : read_hs_packet p ⟨BindOutcome.ok, RecvOutcome.timeout⟩ ps bs
      = (none, [LogEntry.message Severity.debug, LogEntry.message Severity.debug,
                LogEntry.message Severity.debug, LogEntry.context true]) := rfl
  refine ⟨h1, ?_, ?_⟩
  · rw [h1]
    decide
  · simp [read_hs_packet]

/-! ## Dispatcher lemmas and claim theorem (C2) -/

/-- Lookup after a single dict assignment: the assigned key reads back the
new value, every other key is untouched. -/
theorem dictGet_dictSet (d : List (String × PyObj)) (n : String) (v : PyObj)
    (k : String) :
    dictGet (dictSet d n v) k = if k = n then some v else dictGet d k := by
  induction d with
  | nil =>
      simp only [dictSet, dictGet]
      rcases eq_or_ne k n with h | h
      · subst h
        simp
      · simp [h, Ne.symm h]
  | cons p ps ih =>
      simp only [dictSet]
      rcases eq_or_ne p.1 n with hp | hp
      · rw [if_pos hp]
        simp only [dictGet]
        rcases eq_or_ne k n with hk | hk
        · subst hk
          simp
        · have hpk : p.1 ≠ k := by
            rw [hp]
            exact Ne.symm hk
          simp [hk, Ne.symm hk, hpk]
      · rw [if_neg hp]
        simp only [dictGet]
        rcases eq_or_ne p.1 k with hpk | hpk
        · have hk : k ≠ n := by
            rw [← hpk]
            exact hp
          simp [hpk, hk]
        · simp [hpk, ih]

/-- Lookup after `dict.update`: the last assignment the mapping makes to a
key wins; keys the mapping does not touch keep their prior value. -/
theorem dictGet_dictUpdate (m : List (String × PyObj))
    (d : List (String × PyObj)) (k : String) :
    dictGet (dictUpdate d m) k
      = match lookupLast m k with
        | some v => some v
        | none => dictGet d k := by
  induction m generalizing d with
  | nil => simp [dictUpdate, lookupLast]
  | cons p ps ih =>
      simp only [dictUpdate, lookupLast]
      rw [ih]
      rcases h : lookupLast ps k with _ | v
      · simp only [h]
        rw [dictGet_dictSet]
        rcases eq_or_ne k p.1 with hk | hk
        · subst hk
          simp
        · simp [hk, Ne.symm hk]
      · simp [h]

/-- The dispatcher loop processes a list of items left to right: running
`xs ++ ys` is running `xs`, then (unless it raised) running `ys` from the
accumulated record. -/
theorem runStatusItems_append (acc : List (String × PyObj))
    (xs ys : List StatusDataItem) :
    runStatusItems acc (xs ++ ys)
      = match runStatusItems acc xs with
        | Except.error e => Except.error e
        | Except.ok a2 => runStatusItems a2 ys := by
  induction xs generalizing acc with
  | nil => simp [runStatusItems]
  | cons x xs ih =>
      simp only [List.cons_append, runStatusItems]
      cases h : stepStatusItem acc x with
      | error e => simp
      | ok a2 => simp [ih]

/-- C2: `get_status_data` iterates the sources in declared order (appending a
source applies its step to the record accumulated so far); an `unpack` source
merges its mapping via `dict.update`, where the later assignment to a key
wins and untouched keys keep their prior values; a non-`unpack` source stores
its single value under its name, overwriting any prior value at that key; and
the two unpack sources `{a:1, b:2}` then `{b:3, c:4}` merge to
`{a:1, b:3, c:4}`. -/
theorem claim_C2_merge_semantics :
    (∀ (xs : List StatusDataItem) (x : StatusDataItem),
      get_status_data (xs ++ [x])
        = match get_status_data xs with
          | Except.error e => Except.error e
          | Except.ok acc => stepStatusItem acc x)
    ∧ (∀ (acc : List (String × PyObj)) (name : String)
        (m : List (String × PyObj)),
        stepStatusItem acc ⟨name, Except.ok (PyObj.dict m), true⟩
          = Except.ok (dictUpdate acc m))
    ∧ (∀ (acc : List (String × PyObj)) (name : String) (v : PyObj),
        stepStatusItem acc ⟨name, Except.ok v, false⟩
          = Except.ok (dictSet acc name v))
    ∧ (∀ (d m : List (String × PyObj)) (k : String),
        dictGet (dictUpdate d m) k
          = match lookupLast m k with
            | some v => some v
            | none => dictGet d k)
    ∧ (∀ (d : List (String × PyObj)) (n : String) (v : PyObj) (k : String),
        dictGet (dictSet d n v) k = if k = n then some v else dictGet d k)
    ∧ get_status_data
        [⟨"s1", Except.ok (PyObj.dict [("a", PyObj.int 1), ("b", PyObj.int 2)]),
          true⟩,
         ⟨"s2", Except.ok (PyObj.dict [("b", PyObj.int 3), ("c", PyObj.int 4)]),
          true⟩]
        = Except.ok [("a", PyObj.int 1), ("b", PyObj.int 3), ("c", PyObj.int 4)] := by
  refine ⟨?_, fun acc name m => rfl, fun acc name v => rfl,
    fun d m k => dictGet_dictUpdate m d k, fun d n v k => dictGet_dictSet d n v k,
    rfl⟩
  intro xs x
  unfold get_status_data
  rw [runStatusItems_append]
  cases h : runStatusItems [] xs with
  | error e => rfl
  | ok a2 =>
      simp only [runStatusItems]
      cases h2 : stepStatusItem a2 x with
      | error e => rfl
      | ok a3 => rfl


theorem headIsWait_cons (t : MEvent) (l l2 : List MEvent) :
    headIsWait (t :: l) = headIsWait (t :: l2) := by
  cases t <;> rfl

theorem headIsWait_append (xs ys : List MEvent) (hx : headIsWait xs = false)
    (hy : headIsWait ys = false) : headIsWait (xs ++ ys) = false := by
  cases xs with
  | nil => simpa using hy
  | cons t ts => rw [List.cons_append, headIsWait_cons t (ts ++ ys) ts]; exact hx

theorem WaitOk_append (xs ys : List MEvent) (hx : WaitOk xs) (hy : WaitOk ys)
    (hhead : headIsWait ys = false) : WaitOk (xs ++ ys) := by
  induction hx with
  | nil => simpa using hy
  | waitStep d tr _ ih => exact WaitOk.waitStep d (tr ++ ys) ih
  | skip e tr hne hh _ ih =>
      exact WaitOk.skip e (tr ++ ys) hne (headIsWait_append tr ys hh hhead) ih

/-- The inner sleep loop's runs do not depend on the tick-error oracle. -/
theorem sleepLoop_congr (env1 env2 : MonitorEnv) (hc : env1.clock = env2.clock)
    (he : env1.eventSet = env2.eventSet) (sleepNs nextTime : Int) :
    ∀ (fuel : Nat) (st : LoopState),
    sleepLoop env1 sleepNs nextTime fuel st
      = sleepLoop env2 sleepNs nextTime fuel st := by
  intro fuel
  induction fuel with
  | zero => intro st; rfl
  | succ f ih =>
      intro st
      simp only [sleepLoop, hc, he, ih]

/-- Shape of every terminated inner sleep loop trace: each wait is preceded
by a failed `is_set()` check, the trace never starts with a wait, every wait
duration is capped by `sleepNs`, and the trace consists only of observation
and wait events. -/
theorem sleepLoop_trace (env : MonitorEnv) (sleepNs nextTime : Int) :
    ∀ (fuel : Nat) (st : LoopState) (tr : List MEvent) (st2 : LoopState),
    sleepLoop env sleepNs nextTime fuel st = some (tr, st2) →
    WaitOk tr ∧ headIsWait tr = false
    ∧ (∀ d, MEvent.wait d ∈ tr → d ≤ sleepNs)
    ∧ (∀ e ∈ tr, (∃ b, e = MEvent.checkExit b) ∨ ∃ d, e = MEvent.wait d) := by
  intro fuel
  induction fuel with
  | zero => intro st tr st2 h; exact absurd h (by simp [sleepLoop])
  | succ f ih =>
      intro st tr st2 h
      rw [sleepLoop] at h
      by_cases hb : env.eventSet st.o
      · rw [if_pos hb] at h
        obtain ⟨rfl, rfl⟩ : [MEvent.checkExit true] = tr ∧
            (⟨st.c, st.o + 1, st.n⟩ : LoopState) = st2 := by
          have := h
          simp only [Option.some.injEq, Prod.mk.injEq] at this
          exact this
        refine ⟨?_, rfl, ?_, ?_⟩
        · exact WaitOk.skip _ [] (fun d hcon => by cases hcon) rfl WaitOk.nil
        · intro d hd
          simp at hd
        · intro e he2
          simp at he2
          subst he2
          exact Or.inl ⟨true, rfl⟩
      · rw [if_neg hb] at h
        by_cases hlt : env.clock st.c < nextTime
        · rw [if_pos hlt] at h
          cases hs : sleepLoop env sleepNs nextTime f ⟨st.c + 2, st.o + 1, st.n⟩ with
          | none => rw [hs] at h; cases h
          | some r =>
              obtain ⟨trIn, stA⟩ := r
              rw [hs] at h
              obtain ⟨rfl, rfl⟩ : MEvent.checkExit false
                    :: MEvent.wait (min sleepNs (nextTime - env.clock (st.c + 1)))
                    :: trIn = tr ∧ stA = st2 := by
                have := h
                simp only [Option.some.injEq, Prod.mk.injEq] at this
                exact this
              obtain ⟨hwk, hhd, hbound, hevents⟩ :=
                ih ⟨st.c + 2, st.o + 1, st.n⟩ trIn stA hs
              refine ⟨WaitOk.waitStep _ trIn hwk, rfl, ?_, ?_⟩
              · intro d hd
                simp only [List.mem_cons] at hd
                rcases hd with hd | hd | hd
                · exact absurd hd (by simp)
                · injection hd with h1
                  subst h1
                  exact inf_le_left
                · exact hbound d hd
              · intro e he2
                simp only [List.mem_cons] at he2
                rcases he2 with rfl | rfl | he2
                · exact Or.inl ⟨false, rfl⟩
                · exact Or.inr ⟨_, rfl⟩
                · exact hevents e he2
        · rw [if_neg hlt] at h
          obtain ⟨rfl, rfl⟩ : [MEvent.checkExit false] = tr ∧
              (⟨st.c + 1, st.o + 1, st.n⟩ : LoopState) = st2 := by
            have := h
            simp only [Option.some.injEq, Prod.mk.injEq] at this
            exact this
          refine ⟨?_, rfl, ?_, ?_⟩
          · exact WaitOk.skip _ [] (fun d hcon => by cases hcon) rfl WaitOk.nil
          · intro d hd
            simp at hd
          · intro e he2
            simp at he2
            subst he2
            exact Or.inl ⟨false, rfl⟩

/-- A predicate that is false on observation and wait events counts zero on
a trace made only of those. -/
theorem countP_zero_of_events (p : MEvent → Bool)
    (hp1 : ∀ b, p (MEvent.checkExit b) = false)
    (hp2 : ∀ d, p (MEvent.wait d) = false)
    (tr : List MEvent)
    (h : ∀ e ∈ tr, (∃ b, e = MEvent.checkExit b) ∨ ∃ d, e = MEvent.wait d) :
    tr.countP p = 0 := by
  rw [List.countP_eq_zero]
  intro e he
  rcases h e he with ⟨b, rfl⟩ | ⟨d, rfl⟩
  · simp [hp1]
  · simp [hp2]

/-- One-step unfolding of `monitorLoop` with the let bindings inlined. -/
theorem monitorLoop_succ (env : MonitorEnv) (intervalNs sleepNs startTime : Int)
    (f : Nat) (st : LoopState) :
    monitorLoop env intervalNs sleepNs startTime (f + 1) st =
      if env.eventSet st.o then
        some ([MEvent.checkExit true, MEvent.clearEvent], ⟨st.c, st.o + 1, st.n⟩)
      else
        match sleepLoop env sleepNs
            (next_time (env.clock st.c) (env.clock (st.c + 1)) startTime intervalNs)
            f ⟨st.c + 2, st.o + 1, st.n + 1⟩ with
        | none => none
        | some (trIn, st2) =>
            match monitorLoop env intervalNs sleepNs startTime f st2 with
            | none => none
            | some (trOut, st3) =>
                some (MEvent.checkExit false ::
                  (if env.tickErr st.n then
                    [MEvent.tick st.n true, MEvent.logCritical st.n]
                  else [MEvent.tick st.n false]) ++ trIn ++ trOut, st3) := rfl

/-- Trace facts about the tick-event block of one iteration. -/
theorem ticks_facts (n : Nat) (err : Bool) :
    WaitOk (if err then [MEvent.tick n true, MEvent.logCritical n]
            else [MEvent.tick n false])
    ∧ headIsWait (if err then [MEvent.tick n true, MEvent.logCritical n]
            else [MEvent.tick n false]) = false
    ∧ (∀ d, MEvent.wait d ∉ (if err then [MEvent.tick n true, MEvent.logCritical n]
            else [MEvent.tick n false]))
    ∧ (if err then [MEvent.tick n true, MEvent.logCritical n]
            else [MEvent.tick n false]).countP isLogCritB
      = (if err then [MEvent.tick n true, MEvent.logCritical n]
            else [MEvent.tick n false]).countP isTickFailB := by
  cases err
  · refine ⟨WaitOk.skip _ _ (fun d hc => by cases hc) rfl WaitOk.nil, rfl, ?_, rfl⟩
    intro d hd
    simp at hd
  · refine ⟨WaitOk.skip _ _ (fun d hc => by cases hc) rfl
      (WaitOk.skip _ _ (fun d hc => by cases hc) rfl WaitOk.nil), rfl, ?_, rfl⟩
    intro d hd
    simp at hd

/-- Assembly step for `monitorLoop_trace`: trace facts for one recursive
iteration given facts about its three blocks. -/
theorem monitorLoop_trace_aux
    (ticks trIn trOut : List MEvent) (sleepNs : Int)
    (hWT : WaitOk ticks) (hHT : headIsWait ticks = false)
    (hNT : ∀ d, MEvent.wait d ∉ ticks)
    (hCT : ticks.countP isLogCritB = ticks.countP isTickFailB)
    (hwkI : WaitOk trIn) (hhdI : headIsWait trIn = false)
    (hbI : ∀ d, MEvent.wait d ∈ trIn → d ≤ sleepNs)
    (hnI : ∀ e ∈ trIn, (∃ b, e = MEvent.checkExit b) ∨ ∃ d, e = MEvent.wait d)
    (preO : List MEvent)
    (hpre : trOut = preO ++ [MEvent.checkExit true, MEvent.clearEvent])
    (hwkO : WaitOk trOut) (hhdO : headIsWait trOut = false)
    (hbO : ∀ d, MEvent.wait d ∈ trOut → d ≤ sleepNs)
    (hcO : trOut.countP isLogCritB = trOut.countP isTickFailB) :
    (∃ pre, MEvent.checkExit false :: ticks ++ trIn ++ trOut
        = pre ++ [MEvent.checkExit true, MEvent.clearEvent])
    ∧ WaitOk (MEvent.checkExit false :: ticks ++ trIn ++ trOut)
    ∧ headIsWait (MEvent.checkExit false :: ticks ++ trIn ++ trOut) = false
    ∧ (∀ d, MEvent.wait d ∈ MEvent.checkExit false :: ticks ++ trIn ++ trOut →
        d ≤ sleepNs)
    ∧ (MEvent.checkExit false :: ticks ++ trIn ++ trOut).countP isLogCritB
        = (MEvent.checkExit false :: ticks ++ trIn ++ trOut).countP isTickFailB := by
  have hzI := countP_zero_of_events isTickFailB (fun b => rfl) (fun d => rfl) trIn hnI
  have hzI2 := countP_zero_of_events isLogCritB (fun b => rfl) (fun d => rfl) trIn hnI
  refine ⟨?_, ?_, rfl, ?_, ?_⟩
  · refine ⟨MEvent.checkExit false :: ticks ++ trIn ++ preO, ?_⟩
    rw [hpre]
    simp [List.append_assoc]
  · have h1 : WaitOk (trIn ++ trOut) := WaitOk_append trIn trOut hwkI hwkO hhdO
    have h2 : headIsWait (trIn ++ trOut) = false :=
      headIsWait_append trIn trOut hhdI hhdO
    have h3 : WaitOk (ticks ++ (trIn ++ trOut)) :=
      WaitOk_append ticks (trIn ++ trOut) hWT h1 h2
    have h4 : headIsWait (ticks ++ (trIn ++ trOut)) = false :=
      headIsWait_append ticks (trIn ++ trOut) hHT h2
    have h5 : WaitOk (MEvent.checkExit false :: (ticks ++ (trIn ++ trOut))) :=
      WaitOk.skip _ _ (fun d hc => by cases hc) h4 h3
    simpa [List.append_assoc] using h5
  · intro d hd
    simp only [List.cons_append, List.mem_cons, List.append_assoc,
      List.mem_append] at hd
    rcases hd with hd | hd | hd | hd
    · exact absurd hd (by simp)
    · exact absurd hd (hNT d)
    · exact hbI d hd
    · exact hbO d hd
  · simp only [List.cons_append, List.append_assoc, List.countP_cons,
      List.countP_append, hzI, hzI2]
    simp only [isLogCritB, isTickFailB]
    omega

/-- Every terminated scheduler run: the trace ends with the observation of a
set token followed by the `clear()`, every wait is preceded by a fresh
`is_set()` check, every wait duration is at most `sleepNs`, critical logs
match failed ticks one for one, and termination implies the token was
observed set. -/
theorem monitorLoop_trace (env : MonitorEnv) (intervalNs sleepNs startTime : Int) :
    ∀ (fuel : Nat) (st : LoopState) (tr : List MEvent) (st2 : LoopState),
    monitorLoop env intervalNs sleepNs startTime fuel st = some (tr, st2) →
    (∃ pre, tr = pre ++ [MEvent.checkExit true, MEvent.clearEvent])
    ∧ WaitOk tr ∧ headIsWait tr = false
    ∧ (∀ d, MEvent.wait d ∈ tr → d ≤ sleepNs)
    ∧ tr.countP isLogCritB = tr.countP isTickFailB
    ∧ (∃ k, env.eventSet k = true) := by
  intro fuel
  induction fuel with
  | zero => intro st tr st2 h; exact absurd h (by simp [monitorLoop])
  | succ f ih =>
      intro st tr st2 h
      rw [monitorLoop_succ] at h
      by_cases hb : env.eventSet st.o
      · rw [if_pos hb] at h
        cases h
        refine ⟨⟨[], rfl⟩, ?_, rfl, ?_, rfl, ⟨st.o, hb⟩⟩
        · exact WaitOk.skip _ _ (fun d hc => by cases hc) rfl
            (WaitOk.skip _ _ (fun d hc => by cases hc) rfl WaitOk.nil)
        · intro d hd
          simp at hd
      · rw [if_neg hb] at h
        cases hs : sleepLoop env sleepNs
            (next_time (env.clock st.c) (env.clock (st.c + 1)) startTime intervalNs)
            f ⟨st.c + 2, st.o + 1, st.n + 1⟩ with
        | none => rw [hs] at h; cases h
        | some rIn =>
            obtain ⟨trIn, stA⟩ := rIn
            rw [hs] at h
            simp only [] at h
            cases hm : monitorLoop env intervalNs sleepNs startTime f stA with
            | none => rw [hm] at h; cases h
            | some rOut =>
                obtain ⟨trOut, stB⟩ := rOut
                rw [hm] at h
                cases h
                obtain ⟨hwkI, hhdI, hbI, hnI⟩ :=
                  sleepLoop_trace env sleepNs _ f _ trIn stA hs
                obtain ⟨⟨preO, hpre⟩, hwkO, hhdO, hbO, hcO, hkO⟩ :=
                  ih _ _ _ hm
                obtain ⟨hWT, hHT, hNT, hCT⟩ := ticks_facts st.n (env.tickErr st.n)
                obtain ⟨c1, c2, c3, c4, c5⟩ :=
                  monitorLoop_trace_aux _ trIn trOut sleepNs hWT hHT hNT hCT
                    hwkI hhdI hbI hnI preO hpre hwkO hhdO hbO hcO
                exact ⟨c1, c2, c3, c4, c5, hkO⟩

/-- A fetch error from any single data source propagates uncaught out of the
dispatcher loop from the item that raised it. -/
theorem runStatusItems_error (acc : List (String × PyObj)) (item : StatusDataItem)
    (rest : List StatusDataItem) (e : String) (h : item.fn = Except.error e) :
    runStatusItems acc (item :: rest) = Except.error e := by
  simp only [runStatusItems, stepStatusItem, h]

/-- The scheduler's behaviour — the whole trace after erasing tick events,
and in particular whether and when it terminates — does not depend on which
ticks raised. -/
theorem monitorLoop_strip_congr (env1 env2 : MonitorEnv)
    (hc : env1.clock = env2.clock) (he : env1.eventSet = env2.eventSet)
    (intervalNs sleepNs startTime : Int) :
    ∀ (fuel : Nat) (st : LoopState),
    Option.map (fun r => (stripTicks r.1, r.2))
        (monitorLoop env1 intervalNs sleepNs startTime fuel st)
      = Option.map (fun r => (stripTicks r.1, r.2))
        (monitorLoop env2 intervalNs sleepNs startTime fuel st) := by
  intro fuel
  induction fuel with
  | zero => intro st; rfl
  | succ f ih =>
      intro st
      rw [monitorLoop_succ, monitorLoop_succ, hc, he,
        sleepLoop_congr env1 env2 hc he]
      by_cases hb : env2.eventSet st.o
      · rw [if_pos hb, if_pos hb]
      · rw [if_neg hb, if_neg hb]
        cases hs : sleepLoop env2 sleepNs
            (next_time (env2.clock st.c) (env2.clock (st.c + 1)) startTime intervalNs)
            f ⟨st.c + 2, st.o + 1, st.n + 1⟩ with
        | none => rfl
        | some rIn =>
            obtain ⟨trIn, stA⟩ := rIn
            simp only []
            have hih := ih stA
            cases hm1 : monitorLoop env1 intervalNs sleepNs startTime f stA with
            | none =>
                cases hm2 : monitorLoop env2 intervalNs sleepNs startTime f stA with
                | none => rfl
                | some rOut =>
                    rw [hm1, hm2] at hih
                    cases hih
            | some rOut1 =>
                obtain ⟨trOut1, stB1⟩ := rOut1
                cases hm2 : monitorLoop env2 intervalNs sleepNs startTime f stA with
                | none =>
                    rw [hm1, hm2] at hih
                    cases hih
                | some rOut2 =>
                    obtain ⟨trOut2, stB2⟩ := rOut2
                    rw [hm1, hm2] at hih
                    simp only [Option.map_some', Option.some.injEq,
                      Prod.mk.injEq] at hih
                    obtain ⟨htr, hst⟩ := hih
                    simp only [Option.map_some', Option.some.injEq, Prod.mk.injEq]
                    constructor
                    · have h1 : ∀ b, (!isTickEventB (MEvent.tick st.n b)) = false :=
                        fun b => by cases b <;> rfl
                      have h2 : (!isTickEventB (MEvent.logCritical st.n)) = false := rfl
                      have h3 : (!isTickEventB (MEvent.checkExit false)) = true := rfl
                      have htr2 : List.filter (fun e => !isTickEventB e) trOut1
                          = List.filter (fun e => !isTickEventB e) trOut2 := htr
                      cases henv1 : env1.tickErr st.n <;>
                        cases henv2 : env2.tickErr st.n <;>
                          simp [stripTicks, List.filter_append, List.filter_cons,
                            h1, h2, h3, htr2]
                    · exact hst

/-! ## Claim theorems: scheduler loop (C3, C9) -/


/-- C3: an error raised out of a tick — including one propagated uncaught
from any single data source's fetch through the dispatcher — is caught at
the tick boundary and logged at critical severity (critical logs match
failed ticks one for one in every terminated trace); the loop's scheduling
trace and termination do not depend on which ticks failed; and a run can
only terminate after the cancellation token is observed set. -/
theorem claim_C3_tick_errors_nonfatal :
    (∀ (acc : List (String × PyObj)) (item : StatusDataItem)
        (rest : List StatusDataItem) (e : String),
        item.fn = Except.error e →
        runStatusItems acc (item :: rest) = Except.error e)
    ∧ (∀ (env : MonitorEnv) (intervalNs sleepNs startTime : Int) (fuel : Nat)
        (st : LoopState) (tr : List MEvent) (st2 : LoopState),
        monitorLoop env intervalNs sleepNs startTime fuel st = some (tr, st2) →
        tr.countP isLogCritB = tr.countP isTickFailB)
    ∧ (∀ (env1 env2 : MonitorEnv) (intervalNs sleepNs startTime : Int)
        (fuel : Nat) (st : LoopState),
        env1.clock = env2.clock → env1.eventSet = env2.eventSet →
        Option.map (fun r => (stripTicks r.1, r.2))
            (monitorLoop env1 intervalNs sleepNs startTime fuel st)
          = Option.map (fun r => (stripTicks r.1, r.2))
            (monitorLoop env2 intervalNs sleepNs startTime fuel st))
    ∧ (∀ (env : MonitorEnv) (intervalNs sleepNs startTime : Int) (fuel : Nat)
        (st : LoopState) (tr : List MEvent) (st2 : LoopState),
        monitorLoop env intervalNs sleepNs startTime fuel st = some (tr, st2) →
        ∃ k, env.eventSet k = true) := by
  refine ⟨runStatusItems_error, ?_, ?_, ?_⟩
  · intro env intervalNs sleepNs startTime fuel st tr st2 h
    exact (monitorLoop_trace env intervalNs sleepNs startTime fuel st tr st2 h).2.2.2.2.1
  · intro env1 env2 intervalNs sleepNs startTime fuel st hc he
    exact monitorLoop_strip_congr env1 env2 hc he intervalNs sleepNs startTime fuel st
  · intro env intervalNs sleepNs startTime fuel st tr st2 h
    exact (monitorLoop_trace env intervalNs sleepNs startTime fuel st tr st2 h).2.2.2.2.2

/-- Witness for C3: a source raising "E" propagates uncaught out of the
dispatcher, and a concrete terminated run observed the token set. -/
theorem claim_C3_witness :
    runStatusItems [] [⟨"hs", Except.error "E", true⟩] = Except.error "E"
    ∧ ∃ k, envAlwaysSet.eventSet k = true :=
  ⟨claim_C3_tick_errors_nonfatal.1 [] ⟨"hs", Except.error "E", true⟩ [] "E" rfl,
   claim_C3_tick_errors_nonfatal.2.2.2 envAlwaysSet 10 5 0 1 ⟨0, 0, 0⟩
     [MEvent.checkExit true, MEvent.clearEvent] ⟨0, 1, 0⟩ rfl⟩

/-- C9: a terminated scheduler run ends with the observation of a set
cancellation token immediately followed by clearing the token's set state
(the last two trace events); the token is re-checked before every sleep
increment (each wait is preceded by a fresh failed `is_set()` check); and
every single wait lasts at most `sleepNs`, so a token set during a sleep
phase is observed within one sleep interval. -/
theorem claim_C9_cancellation (env : MonitorEnv)
    (intervalNs sleepNs startTime : Int) (fuel : Nat) (st : LoopState)
    (tr : List MEvent) (st2 : LoopState)
    (h : monitorLoop env intervalNs sleepNs startTime fuel st = some (tr, st2)) :
    (∃ pre, tr = pre ++ [MEvent.checkExit true, MEvent.clearEvent])
    ∧ WaitOk tr
    ∧ (∀ d, MEvent.wait d ∈ tr → d ≤ sleepNs) := by
  obtain ⟨h1, h2, _, h4, _, _⟩ :=
    monitorLoop_trace env intervalNs sleepNs startTime fuel st tr st2 h
  exact ⟨h1, h2, h4⟩

/-- Witness for C9 on a concrete one-observation run. -/
theorem claim_C9_witness :
    (∃ pre, [MEvent.checkExit true, MEvent.clearEvent]
        = pre ++ [MEvent.checkExit true, MEvent.clearEvent])
    ∧ WaitOk [MEvent.checkExit true, MEvent.clearEvent]
    ∧ (∀ d, MEvent.wait d ∈ [MEvent.checkExit true, MEvent.clearEvent] → d ≤ 5) :=
  claim_C9_cancellation envAlwaysSet 10 5 0 1 ⟨0, 0, 0⟩
    [MEvent.checkExit true, MEvent.clearEvent] ⟨0, 1, 0⟩ rfl

/-! ## Claim theorems: decode error handling (C5) -/


/-- C5 counterexample: with a truncated 4-byte sensor-status datagram, the
decode error propagates out of `get_hs_data` and the dispatcher, so the tick
produces no record at all — in particular not a record in which the other
sources' fields are still recorded, contrary to the claim. -/
theorem claim_C5_counterexample :
    get_hs_data LINUX_ERRNO ⟨BindOutcome.ok, RecvOutcome.received [1, 2, 3, 4]⟩
      = Except.error "DecodeError: truncated packet"
    ∧ (get_status_data exampleC5items).isOk = false := by
  constructor
  · rfl
  · decide

/-- Every nonempty datagram shorter than the decoder's packet size survives
the UDP read intact (both truncations are identities on it) and fails
decoding with the truncated-packet error, on every platform. -/
theorem get_hs_data_truncated (p : PlatformErrno) (data : List Nat)
    (hne : data ≠ []) (hlen : data.length < packet_size VARIABLE_PARAMS_HS) :
    get_hs_data p ⟨BindOutcome.ok, RecvOutcome.received data⟩
      = Except.error "DecodeError: truncated packet" := by
  have h60 : packet_size VARIABLE_PARAMS_HS = 60 := rfl
  have htake128 : data.take BUFFER_SIZE_HS = data := by
    apply List.take_of_length_le
    rw [h60] at hlen
    simp only [BUFFER_SIZE_HS]
    omega
  have hie : data.isEmpty = false := by
    cases data with
    | nil => exact absurd rfl hne
    | cons a as => rfl
  have htake60 : data.take (packet_size VARIABLE_PARAMS_HS) = data :=
    List.take_of_length_le (le_of_lt hlen)
  have hread : (read_hs_packet p ⟨BindOutcome.ok, RecvOutcome.received data⟩
      (packet_size VARIABLE_PARAMS_HS) BUFFER_SIZE_HS).1 = some data := by
    simp [read_hs_packet, htake128, hie, htake60]
  simp only [get_hs_data, hread]
  simp [decode_data, if_pos hlen, Except.map]

/-- C5 amended (universal): for every platform and every nonempty
sensor-status datagram shorter than the decoder's packet size, the decode
error propagates out of `get_hs_data`; for every dispatcher state it aborts
the tick's record entirely — whatever the earlier sources already recorded
and whatever sources follow, the run returns the error and no record is
produced; and the error is recoverable for the process: in every terminated
scheduler run failed ticks are logged critical one for one, and the
scheduling trace (hence continuation to further ticks, and termination) does
not depend on which ticks failed. -/
theorem claim_C5_amended_recoverable :
    (∀ (p : PlatformErrno) (data : List Nat), data ≠ [] →
        data.length < packet_size VARIABLE_PARAMS_HS →
        get_hs_data p ⟨BindOutcome.ok, RecvOutcome.received data⟩
          = Except.error "DecodeError: truncated packet")
    ∧ (∀ (p : PlatformErrno) (data : List Nat) (acc : List (String × PyObj))
        (name : String) (rest : List StatusDataItem), data ≠ [] →
        data.length < packet_size VARIABLE_PARAMS_HS →
        runStatusItems acc
          (⟨name, get_hs_data p ⟨BindOutcome.ok, RecvOutcome.received data⟩, true⟩
            :: rest)
          = Except.error "DecodeError: truncated packet")
    ∧ (∀ (env : MonitorEnv) (intervalNs sleepNs startTime : Int) (fuel : Nat)
        (st : LoopState) (tr : List MEvent) (st2 : LoopState),
        monitorLoop env intervalNs sleepNs startTime fuel st = some (tr, st2) →
        tr.countP isLogCritB = tr.countP isTickFailB)
    ∧ (∀ (env1 env2 : MonitorEnv) (intervalNs sleepNs startTime : Int)
        (fuel : Nat) (st : LoopState),
        env1.clock = env2.clock → env1.eventSet = env2.eventSet →
        Option.map (fun r => (stripTicks r.1, r.2))
            (monitorLoop env1 intervalNs sleepNs startTime fuel st)
          = Option.map (fun r => (stripTicks r.1, r.2))
            (monitorLoop env2 intervalNs sleepNs startTime fuel st)) := by
  refine ⟨get_hs_data_truncated, ?_, ?_, ?_⟩
  · intro p data acc name rest hne hlen
    exact runStatusItems_error acc _ rest _ (get_hs_data_truncated p data hne hlen)
  · intro env intervalNs sleepNs startTime fuel st tr st2 h
    exact (monitorLoop_trace env intervalNs sleepNs startTime fuel st tr st2 h).2.2.2.2.1
  · intro env1 env2 intervalNs sleepNs startTime fuel st hc he
    exact monitorLoop_strip_congr env1 env2 hc he intervalNs sleepNs startTime fuel st

/-- Witness for the amended C5: the concrete truncated 4-byte datagram makes
the fetch raise; the concrete tick aborts with that error whatever the
"time" source already recorded; and the concrete two-tick run of `envC5loop`
(whose first tick fails) has its critical logs matching its failed ticks,
with tick 0's failure logged critical and tick 1 still running. -/
theorem claim_C5_amended_witness :
    get_hs_data LINUX_ERRNO ⟨BindOutcome.ok, RecvOutcome.received [1, 2, 3, 4]⟩
      = Except.error "DecodeError: truncated packet"
    ∧ runStatusItems [("time", PyObj.int 0)]
        [⟨"hs", get_hs_data LINUX_ERRNO
            ⟨BindOutcome.ok, RecvOutcome.received [1, 2, 3, 4]⟩, true⟩]
      = Except.error "DecodeError: truncated packet"
    ∧ trC5.countP isLogCritB = trC5.countP isTickFailB
    ∧ MEvent.logCritical 0 ∈ trC5 ∧ MEvent.tick 1 false ∈ trC5 :=
  ⟨claim_C5_amended_recoverable.1 LINUX_ERRNO [1, 2, 3, 4] (by decide) (by decide),
   claim_C5_amended_recoverable.2.1 LINUX_ERRNO [1, 2, 3, 4] [("time", PyObj.int 0)]
     "hs" [] (by decide) (by decide),
   claim_C5_amended_recoverable.2.2.1 envC5loop 10 5 0 5 ⟨0, 0, 0⟩ trC5 ⟨6, 5, 2⟩ rfl,
   by decide, by decide⟩
